import Mathlib

/-!
Verification development for the beego XML configuration backend
(`core/config/xml/xml.go`).

The Go file is shallowly embedded below.  Go `map[string]interface{}`
values are reference values, so the state of a program is modelled as a
`Store`: a list of map objects addressed by position.  A stored value
(`Val`) is either a scalar string or a reference to another map object
in the store, mirroring the two shapes the loader produces (scalar
string / nested `map[string]interface{}`).  A `ConfigContainer` handle
is the address of the map object held in its `data` field.

External calls are embedded at their observable boundary:
`strconv.Atoi` / `strconv.ParseInt` are modelled arithmetically (their
base-10, 64-bit behaviour), `strconv.ParseFloat` is kept as an oracle
parameter because its IEEE-754 value semantics are outside this
development, and `encoding/xml` marshalling of a map value is modelled
by the `UnsupportedTypeError` it always returns.  Functions of the
surrounding beego `config` package whose sources are not part of this
repository snapshot (`ParseBool`, `ExpandValueEnvForMap`) are modelled
from the specification and carry a `Modelled from the spec:` note.
-/

/-- Alias for `String`, kept because several embedded methods of
`ConfigContainer` below are named `String`, `Int`, `Bool` after their Go
originals and would otherwise shadow the builtin type names inside the
namespace. -/
abbrev GoStr := String

/-- Alias for `Bool` (see `GoStr`). -/
abbrev GoBool := Bool

/-- Go's `int`/`int64` value space, modelled as unbounded integers; the
64-bit range restriction is applied explicitly where `strconv` applies
it. -/
abbrev GoInt := Int

/-- Address of a map object in the store (a Go map reference). -/
abbrev Addr := Nat

/-- A value stored in a configuration map: either a scalar string or a
reference to a nested map object (Go `map[string]interface{}` is a
reference type). -/
inductive Val where
  | str (s : GoStr)
  | ref (a : Addr)
  deriving DecidableEq

/-- One map object: an association list from keys to values.  Go map
iteration order is irrelevant to every claim treated here. -/
abbrev NodeMap := List (GoStr × Val)

/-- The heap of map objects; an `Addr` indexes into it. -/
abbrev Store := List NodeMap

/-- Go map read `m[key]` (`nil`, i.e. `none`, when absent). -/
def lookupVal : NodeMap → GoStr → Option Val
  | [], _ => none
  | (k, v) :: m, key => if k = key then some v else lookupVal m key

/-- Go map write `m[key] = v`: replaces the binding of `key` if present,
otherwise adds it. -/
def insertVal : NodeMap → GoStr → Val → NodeMap
  | [], key, v => [(key, v)]
  | (k, w) :: m, key, v =>
    if k = key then (key, v) :: m else (k, w) :: insertVal m key v

/-- Dereference a map address.  A dangling address yields the empty map;
every theorem that mutates through an address assumes the address is
allocated. -/
def getNode : Store → Addr → NodeMap
  | [], _ => []
  | m :: _, 0 => m
  | _ :: σ, a + 1 => getNode σ a

/-- Overwrite the map object at an address (in-place mutation of a Go
map reaches every holder of the reference). -/
def setNode : Store → Addr → NodeMap → Store
  | [], _, _ => []
  | _ :: σ, 0, m => m :: σ
  | n :: σ, a + 1, m => n :: setNode σ a m

theorem lookupVal_insertVal_self (m : NodeMap) (k : GoStr) (v : Val) :
    lookupVal (insertVal m k v) k = some v := by
  induction m with
  | nil => simp [insertVal, lookupVal]
  | cons p m ih =>
    obtain ⟨k', w⟩ := p
    by_cases h : k' = k
    · simp [insertVal, h, lookupVal]
    · simp [insertVal, h, lookupVal, ih]

theorem lookupVal_insertVal_ne (m : NodeMap) (k k' : GoStr) (v : Val)
    (h : k' ≠ k) : lookupVal (insertVal m k v) k' = lookupVal m k' := by
  have hk : k ≠ k' := Ne.symm h
  induction m with
  | nil => simp [insertVal, lookupVal, hk]
  | cons p m ih =>
    obtain ⟨k₀, w⟩ := p
    by_cases h0 : k₀ = k
    · subst h0
      simp [insertVal, lookupVal, hk]
    · simp [insertVal, h0, lookupVal, ih]

theorem getNode_setNode_self (σ : Store) (a : Addr) (m : NodeMap)
    (h : a < σ.length) : getNode (setNode σ a m) a = m := by
  induction σ generalizing a with
  | nil => simp at h
  | cons n σ ih =>
    cases a with
    | zero => simp [setNode, getNode]
    | succ a =>
      simp only [List.length_cons, Nat.succ_lt_succ_iff] at h
      simp [setNode, getNode, ih a h]

theorem getNode_setNode_ne (σ : Store) (a a' : Addr) (m : NodeMap)
    (h : a' ≠ a) : getNode (setNode σ a m) a' = getNode σ a' := by
  induction σ generalizing a a' with
  | nil => simp [setNode]
  | cons n σ ih =>
    cases a with
    | zero =>
      cases a' with
      | zero => exact absurd rfl h
      | succ a' => simp [setNode, getNode]
    | succ a =>
      cases a' with
      | zero => simp [setNode, getNode]
      | succ a' =>
        have h' : a' ≠ a := fun he => h (by simp [he])
        simp [setNode, getNode, ih a a' h']

/-- Error values returned by the embedded functions.  Each constructor
stands for one `error` the Go code can produce; the message text of the
corresponding `fmt.Errorf`/library error is recorded in the doc string
of the producing definition. -/
inductive CErr where
  /-- `fmt.Errorf("not exist key: %q", key)` from `Bool`. -/
  | notFound (key : GoStr)
  /-- `fmt.Errorf("the key is not found: %s", key)` from `sub`. -/
  | keyNotFound (key : GoStr)
  /-- `fmt.Errorf("the value of this key is not a structure: %s", key)`
  from `sub`. -/
  | notStructure (key : GoStr)
  /-- `fmt.Errorf("xml parse should include in <config></config> tags")`
  from `ParseData`. -/
  | missingConfigTag
  /-- `fmt.Errorf("xml parse <config></config> tags should include sub
  tags")` from `ParseData`. -/
  | configTagNoSub
  /-- A `strconv` `ErrSyntax` failure (non-numeric input). -/
  | parseErr
  /-- A `strconv` `ErrRange` failure (value outside the requested
  width). -/
  | rangeErr
  /-- A type error from the permissive boolean parser
  (`config.ParseBool` on an unrecognised value). -/
  | typeErr
  /-- An I/O failure (file cannot be opened/written). -/
  | ioErr
  /-- `encoding/xml` `UnsupportedTypeError`. -/
  | unsupportedType
  deriving DecidableEq

/-- Outcome of a Go call that returns `(α, error)` and may also panic.
`ok` is a `nil` error; `err` is a non-nil error (the partial value Go
returns alongside a non-nil error is dropped, no caller of the embedded
code reads it); `panicked` is an uncontrolled runtime fault (failed type
assertion). -/
inductive Res (α : Type) where
  | ok (a : α)
  | err (e : CErr)
  | panicked
  deriving DecidableEq

/-- Outcome of a default-valued wrapper: the returned value, or a panic
propagated out of the underlying strict getter. -/
inductive Dflt (α : Type) where
  | val (a : α)
  | panicked
  deriving DecidableEq

/-- The value of an ASCII decimal digit character, as recognised by the
byte test `ch -= '0'; ch > 9` in `strconv`; non-ASCII digits are
rejected. -/
def digitVal (c : Char) : Option Nat :=
  if 48 ≤ c.toNat ∧ c.toNat ≤ 57 then some (c.toNat - 48) else none

/-- The digit-accumulation loop of `strconv`'s base-10 parsing:
left-to-right `acc = acc * 10 + digit`, failing on the first non-digit
character. -/
def parseDigitsAux : Nat → List Char → Option Nat
  | acc, [] => some acc
  | acc, c :: cs =>
    match digitVal c with
    | some d => parseDigitsAux (acc * 10 + d) cs
    | none => none

/-- Sign handling of `strconv.Atoi`/`ParseInt` for base 10: an optional
leading `+`/`-`, followed by a non-empty run of decimal digits; anything
else (empty input, sign alone, any non-digit, an underscore — base 10 is
given explicitly, so underscores are rejected) is a syntax error
(`none`). -/
def parseDecChars : List Char → Option GoInt
  | [] => none
  | c :: cs =>
    if c = '-' then
      match cs with
      | [] => none
      | _ :: _ => (parseDigitsAux 0 cs).map (fun n => -(n : GoInt))
    else if c = '+' then
      match cs with
      | [] => none
      | _ :: _ => (parseDigitsAux 0 cs).map (fun n => (n : GoInt))
    else (parseDigitsAux 0 (c :: cs)).map (fun n => (n : GoInt))

/-- `math.MaxInt64`. -/
def int64Max : GoInt := 2 ^ 63 - 1

/-- `math.MinInt64`. -/
def int64Min : GoInt := -(2 ^ 63)

/-- Base-10, 64-bit integer parsing shared by `strconv.Atoi` (bit size 0
resolves to the 64-bit `int` of the platform) and
`strconv.ParseInt(s, 10, 64)`: syntax error on non-numeric input, range
error when the value falls outside the signed 64-bit range.  `strconv`
checks overflow digit-by-digit against a cutoff while this model parses
the full value and compares it with the bounds; for base-10 input the
two classifications agree.  The clamped value Go returns together with
`ErrRange` is dropped (see `Res`). -/
def goParseInt10 (s : List Char) : Except CErr GoInt :=
  match parseDecChars s with
  | none => .error .parseErr
  | some n => if int64Min ≤ n ∧ n ≤ int64Max then .ok n else .error .rangeErr

/-- `strconv.Atoi` (on a 64-bit platform). -/
def atoi (s : GoStr) : Except CErr GoInt := goParseInt10 s.data

/-- `strconv.ParseInt(s, 10, 64)`, which coincides with `atoi` on a
64-bit platform. -/
def parseInt64 (s : GoStr) : Except CErr GoInt := goParseInt10 s.data

/-- Modelled from the spec: `config.ParseBool` of the beego `config`
package (its source is not part of this repository snapshot).  Per the
spec it is a permissive boolean-token parser accepting the truthy
spellings "1","t","T","TRUE","true","True" and the falsy spellings
"0","f","F","FALSE","false","False" of a stored string, and failing
with a type error on any other value (including a nested mapping). -/
def ParseBool (v : Val) : Except CErr GoBool :=
  match v with
  | .str s =>
    if s ∈ (["1", "t", "T", "TRUE", "true", "True"] : List GoStr) then
      .ok true
    else if s ∈ (["0", "f", "F", "FALSE", "false", "False"] : List GoStr) then
      .ok false
    else .error .typeErr
  | .ref _ => .error .typeErr

/-- `strings.Split` restricted to a one-character separator (the code
only splits on ";"): cuts at every occurrence of the separator, keeping
empty segments, and maps the empty input to the single empty segment. -/
def splitChars (sep : Char) : List Char → List (List Char)
  | [] => [[]]
  | c :: cs =>
    if c = sep then [] :: splitChars sep cs
    else
      match splitChars sep cs with
      | [] => [[c]]
      | p :: ps => (c :: p) :: ps

/-- `strings.Split(s, ";")` as used by `Strings`. -/
def goStringsSplit (s : GoStr) (sep : Char) : List GoStr :=
  (splitChars sep s.data).map String.mk

/-- Expansion of one stored value: scalar strings are passed through the
environment-expansion function, nested-map references are left as the
same reference. -/
def expandVal (e : GoStr → GoStr) : Val → Val
  | .str s => .str (e s)
  | .ref a => .ref a

/-- Modelled from the spec: `config.ExpandValueEnvForMap` of the beego
`config` package (its source is not part of this repository snapshot).
Per the spec, every scalar string value reachable in the mapping is
passed through environment-variable expansion, abstracted here as the
function `e`; nested structure is preserved.  The model applies `e` to
every scalar in every map object of the store, which agrees with the
spec on every node reachable through the returned handle. -/
def expandStore (e : GoStr → GoStr) (σ : Store) : Store :=
  σ.map (fun m => m.map (fun kv => (kv.1, expandVal e kv.2)))

/-- `(*Config).ParseData` (xml.go lines 65-86), taken from the point
where `x2j.DocToMap` has succeeded: `σ` is the store of map objects the
conversion allocated and `d` the resulting document mapping (the spec
treats `DocToMap` itself as a black box; when it fails, `ParseData`
returns its error and no handle, before any of the code modelled here
runs).  The Go code reads `d["config"]`; a missing value is the first
structural error, a value that is not a `map[string]interface{}` is the
second, and otherwise the container's `data` field is set to the
expansion of that mapping and the container is returned. -/
def ParseData (e : GoStr → GoStr) (σ : Store) (d : NodeMap) :
    Except CErr (Store × Addr) :=
  match lookupVal d "config" with
  | none => .error .missingConfigTag
  | some (.str _) => .error .configTagNoSub
  | some (.ref a) => .ok (expandStore e σ, a)

namespace ConfigContainer

/-- `(*ConfigContainer).Bool` (xml.go lines 137-142): if
`c.data[key]` is non-nil it is handed to `config.ParseBool`, otherwise
the not-found error `fmt.Errorf("not exist key: %q", key)` is
returned. -/
def Bool (m : NodeMap) (key : GoStr) : Res GoBool :=
  match lookupVal m key with
  | some v =>
    match ParseBool v with
    | .ok b => .ok b
    | .error e => .err e
  | none => .err (.notFound key)

/-- `(*ConfigContainer).DefaultBool` (xml.go lines 146-152): the value
of `Bool` if its error is nil, the default otherwise. -/
def DefaultBool (m : NodeMap) (key : GoStr) (defaultVal : GoBool) :
    Dflt GoBool :=
  match Bool m key with
  | .ok v => .val v
  | .err _ => .val defaultVal
  | .panicked => .panicked

/-- `(*ConfigContainer).Int` (xml.go lines 155-157):
`strconv.Atoi(c.data[key].(string))`.  The bare type assertion
`.(string)` panics when the key is absent (`nil` interface) or when the
value is a nested `map[string]interface{}`. -/
def Int (m : NodeMap) (key : GoStr) : Res GoInt :=
  match lookupVal m key with
  | some (.str s) =>
    match atoi s with
    | .ok n => .ok n
    | .error e => .err e
  | some (.ref _) => .panicked
  | none => .panicked

/-- `(*ConfigContainer).DefaultInt` (xml.go lines 161-167): the value of
`Int` if its error is nil, the default otherwise; a panic inside `Int`
propagates. -/
def DefaultInt (m : NodeMap) (key : GoStr) (defaultVal : GoInt) :
    Dflt GoInt :=
  match Int m key with
  | .ok v => .val v
  | .err _ => .val defaultVal
  | .panicked => .panicked

/-- `(*ConfigContainer).Int64` (xml.go lines 170-172):
`strconv.ParseInt(c.data[key].(string), 10, 64)`, with the same panic
behaviour of the bare type assertion as `Int`. -/
def Int64 (m : NodeMap) (key : GoStr) : Res GoInt :=
  match lookupVal m key with
  | some (.str s) =>
    match parseInt64 s with
    | .ok n => .ok n
    | .error e => .err e
  | some (.ref _) => .panicked
  | none => .panicked

/-- `(*ConfigContainer).DefaultInt64` (xml.go lines 176-182). -/
def DefaultInt64 (m : NodeMap) (key : GoStr) (defaultVal : GoInt) :
    Dflt GoInt :=
  match Int64 m key with
  | .ok v => .val v
  | .err _ => .val defaultVal
  | .panicked => .panicked

/-- `(*ConfigContainer).Float` (xml.go lines 185-187):
`strconv.ParseFloat(c.data[key].(string), 64)`, with the same panic
behaviour of the bare type assertion as `Int`.  The IEEE-754 value and
error classification of `strconv.ParseFloat` lie outside this
embedding; the call is represented by the oracle `pf`, with `F` standing
for `float64`. -/
def Float (F : Type) (pf : GoStr → Except CErr F) (m : NodeMap)
    (key : GoStr) : Res F :=
  match lookupVal m key with
  | some (.str s) =>
    match pf s with
    | .ok f => .ok f
    | .error e => .err e
  | some (.ref _) => .panicked
  | none => .panicked

/-- `(*ConfigContainer).DefaultFloat` (xml.go lines 191-197). -/
def DefaultFloat (F : Type) (pf : GoStr → Except CErr F) (m : NodeMap)
    (key : GoStr) (defaultVal : F) : Dflt F :=
  match Float F pf m key with
  | .ok v => .val v
  | .err _ => .val defaultVal
  | .panicked => .panicked

/-- `(*ConfigContainer).String` (xml.go lines 200-205): the comma-ok
type assertion `c.data[key].(string)` never panics; the stored string is
returned with a nil error, and every other case (absent key or nested
mapping) returns `("", nil)`. -/
def String (m : NodeMap) (key : GoStr) : Res GoStr :=
  match lookupVal m key with
  | some (.str s) => .ok s
  | _ => .ok ""

/-- `(*ConfigContainer).DefaultString` (xml.go lines 209-215): the
default when `String` returns an empty value or a non-nil error, the
stored value otherwise. -/
def DefaultString (m : NodeMap) (key : GoStr) (defaultVal : GoStr) :
    GoStr :=
  match String m key with
  | .ok v => if v = "" then defaultVal else v
  | _ => defaultVal

/-- `(*ConfigContainer).Strings` (xml.go lines 218-224): `(nil, err)`
when `String` gives an empty value or an error (modelled as `.ok []`
when the error is nil), otherwise `strings.Split(v, ";")`. -/
def Strings (m : NodeMap) (key : GoStr) : Res (List GoStr) :=
  match String m key with
  | .ok v => if v = "" then .ok [] else .ok (goStringsSplit v ';')
  | .err e => .err e
  | .panicked => .panicked

/-- `(*ConfigContainer).sub` (xml.go lines 117-130): the container's own
map for the empty key; otherwise the value of the key, which must exist
(`"the key is not found"`) and be a `map[string]interface{}`
(`"the value of this key is not a structure"`).  The comma-ok assertion
does not panic.  The returned address is the nested map object itself —
no copy is made. -/
def sub (σ : Store) (c : Addr) (key : GoStr) : Except CErr Addr :=
  if key = "" then .ok c
  else
    match lookupVal (getNode σ c) key with
    | none => .error (.keyNotFound key)
    | some (.str _) => .error (.notStructure key)
    | some (.ref a) => .ok a

/-- `(*ConfigContainer).Sub` (xml.go lines 106-115): a new
`ConfigContainer` whose `data` field is the map returned by `sub` — the
handle is the shared address. -/
def Sub (σ : Store) (c : Addr) (key : GoStr) : Except CErr Addr :=
  match sub σ c key with
  | .error e => .error e
  | .ok a => .ok a

/-- `(*ConfigContainer).Set` (xml.go lines 265-270):
`c.data[key] = val` under the container's mutex (the lock admits no
observable behaviour in this single-threaded model), then `return nil`.
The write mutates the shared map object at the container's address. -/
def Set (σ : Store) (c : Addr) (key val : GoStr) : Store × Option CErr :=
  (setNode σ c (insertVal (getNode σ c) key (.str val)), none)

/-- `xml.MarshalIndent(c.data, "  ", "    ")` for the container's
`data` field.  Modelled from Go's `encoding/xml`: marshalling a value of
map kind — `c.data` is a `map[string]interface{}` — always fails with
`&UnsupportedTypeError` ("xml: unsupported type: map[string]interface
\x7b\x7d"), since neither the element-name derivation nor
`marshalSimple` has a case for the map kind.  No byte is produced. -/
def xmlMarshalIndent (_m : NodeMap) : Except CErr (List GoStr) :=
  .error .unsupportedType

/-- `(*ConfigContainer).SaveConfigFile` (xml.go lines 249-262):
`os.OpenFile` (abstracted by the flag `openOk`), then
`xml.MarshalIndent(c.data, ...)`, whose error is returned as is; on
success the marshalled bytes would be written.  Because
`xmlMarshalIndent` fails on every map, the write is never reached. -/
def SaveConfigFile (openOk : GoBool) (m : NodeMap) : Except CErr Unit :=
  if openOk then
    match xmlMarshalIndent m with
    | .error e => .error e
    | .ok _ => .ok ()
  else .error .ioErr

end ConfigContainer

/-- Big-endian decimal digit string of a natural number, built with
explicit fuel so that every recursion is structural (`fuel = n`
suffices, the quotient `n / 10` strictly decreases). -/
def natDecChars : Nat → Nat → List Char
  | 0, _ => []
  | fuel + 1, n =>
    if n < 10 then [Nat.digitChar n]
    else natDecChars fuel (n / 10) ++ [Nat.digitChar (n % 10)]

/-- The base-10 decimal spelling of an integer, in the format produced
by Go's `strconv.Itoa`/`FormatInt`: digits with no sign for `n ≥ 0`, a
leading `-` for `n < 0`. -/
def intDecimal (n : GoInt) : GoStr :=
  if n < 0 then String.mk ('-' :: natDecChars n.natAbs n.natAbs)
  else if n = 0 then "0"
  else String.mk (natDecChars n.toNat n.toNat)

theorem digitVal_digitChar (d : Nat) (h : d < 10) :
    digitVal (Nat.digitChar d) = some d := by
  interval_cases d <;> rfl

theorem digitChar_ne_signs (d : Nat) (h : d < 10) :
    Nat.digitChar d ≠ '-' ∧ Nat.digitChar d ≠ '+' := by
  interval_cases d <;> exact ⟨by decide, by decide⟩

theorem parseDigitsAux_append (l₁ l₂ : List Char) (acc : Nat) :
    parseDigitsAux acc (l₁ ++ l₂) =
      match parseDigitsAux acc l₁ with
      | some m => parseDigitsAux m l₂
      | none => none := by
  induction l₁ generalizing acc with
  | nil => simp [parseDigitsAux]
  | cons c cs ih =>
    simp only [List.cons_append, parseDigitsAux]
    cases digitVal c with
    | some d => simp [ih]
    | none => simp

theorem parseDigitsAux_natDecChars (fuel : Nat) :
    ∀ n, 0 < n → n ≤ fuel → parseDigitsAux 0 (natDecChars fuel n) = some n := by
  induction fuel with
  | zero => intro n h1 h2; omega
  | succ fuel ih =>
    intro n h1 h2
    by_cases h10 : n < 10
    · simp [natDecChars, h10, parseDigitsAux, digitVal_digitChar n h10]
    · have hq1 : 0 < n / 10 := Nat.div_pos (by omega) (by omega)
      have hq2 : n / 10 ≤ fuel := by
        have := Nat.div_lt_self h1 (by omega : 1 < 10)
        omega
      have hmod : n % 10 < 10 := Nat.mod_lt n (by omega)
      simp only [natDecChars, h10, if_false]
      rw [parseDigitsAux_append]
      rw [ih (n / 10) hq1 hq2]
      simp [parseDigitsAux, digitVal_digitChar (n % 10) hmod]
      omega

theorem natDecChars_head_digit (fuel : Nat) :
    ∀ n, 0 < n → n ≤ fuel →
      ∃ c cs, natDecChars fuel n = c :: cs ∧ ∃ d, d < 10 ∧ c = Nat.digitChar d := by
  induction fuel with
  | zero => intro n h1 h2; omega
  | succ fuel ih =>
    intro n h1 h2
    by_cases h10 : n < 10
    · exact ⟨Nat.digitChar n, [], by simp [natDecChars, h10], n, h10, rfl⟩
    · have hq1 : 0 < n / 10 := Nat.div_pos (by omega) (by omega)
      have hq2 : n / 10 ≤ fuel := by
        have := Nat.div_lt_self h1 (by omega : 1 < 10)
        omega
      obtain ⟨c, cs, hcons, d, hd, hcd⟩ := ih (n / 10) hq1 hq2
      refine ⟨c, cs ++ [Nat.digitChar (n % 10)], ?_, d, hd, hcd⟩
      simp [natDecChars, h10, hcons]

theorem parseDecChars_natDecChars (n : Nat) (h : 0 < n) :
    parseDecChars (natDecChars n n) = some (n : GoInt) := by
  obtain ⟨c, cs, hcons, d, hd, hcd⟩ := natDecChars_head_digit n n h le_rfl
  obtain ⟨hm, hp⟩ := digitChar_ne_signs d hd
  rw [hcons]
  simp only [parseDecChars, hcd, hm, hp, if_false]
  rw [← hcd, ← hcons, parseDigitsAux_natDecChars n n h le_rfl]
  rfl

theorem atoi_intDecimal (n : Int) (h1 : int64Min ≤ n) (h2 : n ≤ int64Max) :
    atoi (intDecimal n) = .ok n := by
  rcases lt_trichotomy n 0 with hn | hn | hn
  · have habs : 0 < n.natAbs := by omega
    have hspell : intDecimal n = String.mk ('-' :: natDecChars n.natAbs n.natAbs) := by
      simp [intDecimal, hn]
    obtain ⟨c, cs, hcons, d, hd, hcd⟩ :=
      natDecChars_head_digit n.natAbs n.natAbs habs le_rfl
    rw [hspell]
    show goParseInt10 ('-' :: natDecChars n.natAbs n.natAbs) = .ok n
    rw [hcons]
    simp only [parseDecChars, goParseInt10, if_pos rfl]
    rw [← hcons, parseDigitsAux_natDecChars n.natAbs n.natAbs habs le_rfl]
    simp [abs_of_nonpos (le_of_lt hn), h1, h2]
  · subst hn
    rfl
  · have hpos : 0 < n.toNat := by omega
    have hn1 : ¬n < 0 := by omega
    have hn2 : ¬n = 0 := by omega
    have hspell : intDecimal n = String.mk (natDecChars n.toNat n.toNat) := by
      simp [intDecimal, hn1, hn2]
    rw [hspell]
    show goParseInt10 (natDecChars n.toNat n.toNat) = .ok n
    simp only [goParseInt10, parseDecChars_natDecChars n.toNat hpos]
    have hv : ((n.toNat : Nat) : Int) = n := by omega
    rw [hv, if_pos ⟨h1, h2⟩]

/-- C1: for every input byte sequence whose XML-to-map conversion yields
a mapping `d` (its nested map objects living in store `σ`): if `d` has
no top-level "config" key, `ParseData` returns the structural error
"xml parse should include in config tags" and no handle; if the
"config" value is not itself a mapping, it returns the structural error
"config tags should include sub tags" and no handle; if the "config"
value is a mapping, it returns a handle over exactly that mapping with
environment expansion applied.  No partial configuration is ever
returned: the error cases produce no handle at all. -/
theorem c1_parseData (e : GoStr → GoStr) (σ : Store) (d : NodeMap) :
    (lookupVal d "config" = none →
      ParseData e σ d = .error .missingConfigTag)
  ∧ (∀ s, lookupVal d "config" = some (.str s) →
      ParseData e σ d = .error .configTagNoSub)
  ∧ (∀ a, lookupVal d "config" = some (.ref a) →
      ParseData e σ d = .ok (expandStore e σ, a)) :=
  ⟨fun h => by simp [ParseData, h],
   fun s h => by simp [ParseData, h],
   fun a h => by simp [ParseData, h]⟩

/-- Witness for C1 at a concrete conversion result: the document maps
"config" to map object 0, so `ParseData` returns a handle over it. -/
theorem c1_witness :
    lookupVal [("config", Val.ref 0)] "config" = some (.ref 0)
  ∧ ParseData id [[("a", Val.str "1")]] [("config", Val.ref 0)] =
      .ok (expandStore id [[("a", Val.str "1")]], 0) :=
  ⟨rfl,
   (c1_parseData id [[("a", Val.str "1")]] [("config", Val.ref 0)]).2.2 0 rfl⟩

/-- C2: for every key K present with stored string value V, `Bool K`
returns `(true, nil)` when V is a truthy spelling, `(false, nil)` when V
is a falsy spelling, and a type error for any other string; for every
absent K it returns the not-found error. -/
theorem c2_bool (m : NodeMap) (K : GoStr) :
    (∀ V, lookupVal m K = some (.str V) →
      (V ∈ (["1", "t", "T", "TRUE", "true", "True"] : List GoStr) →
        ConfigContainer.Bool m K = .ok true)
      ∧ (V ∈ (["0", "f", "F", "FALSE", "false", "False"] : List GoStr) →
        ConfigContainer.Bool m K = .ok false)
      ∧ (V ∉ (["1", "t", "T", "TRUE", "true", "True"] : List GoStr) →
          V ∉ (["0", "f", "F", "FALSE", "false", "False"] : List GoStr) →
        ConfigContainer.Bool m K = .err .typeErr))
  ∧ (lookupVal m K = none →
      ConfigContainer.Bool m K = .err (.notFound K)) := by
  constructor
  · intro V hV
    have hb : ConfigContainer.Bool m K =
        match ParseBool (.str V) with
        | .ok b => .ok b
        | .error e => .err e := by
      simp [ConfigContainer.Bool, hV]
    refine ⟨fun h => ?_, fun h => ?_, fun h1 h2 => ?_⟩
    · rw [hb]
      simp only [List.mem_cons, List.not_mem_nil, or_false] at h
      rcases h with rfl | rfl | rfl | rfl | rfl | rfl <;> rfl
    · rw [hb]
      simp only [List.mem_cons, List.not_mem_nil, or_false] at h
      rcases h with rfl | rfl | rfl | rfl | rfl | rfl <;> rfl
    · rw [hb]
      simp [ParseBool, h1, h2]
  · intro h
    simp [ConfigContainer.Bool, h]

/-- Witness for C2 at a concrete node: key "k" stores "true", a truthy
spelling, and `Bool` returns `(true, nil)`. -/
theorem c2_witness :
    lookupVal [("k", Val.str "true")] "k" = some (.str "true")
  ∧ ConfigContainer.Bool [("k", Val.str "true")] "k" = .ok true :=
  ⟨rfl, ((c2_bool [("k", Val.str "true")] "k").1 "true" rfl).1 (by decide)⟩

/-- C3: for every key K absent from the node, each of `Int`, `Int64` and
`Float` fails with an uncontrolled runtime fault — the bare type
assertion `c.data[key].(string)` panics on the nil value — rather than
returning a structured not-found error; for K present with a string
value, `Int`/`Int64` return the base-10 64-bit parse of the string
(`.ok n` for a successful parse, a parse error on non-numeric input),
and `Float` returns what `strconv.ParseFloat` (the oracle `pf`) returns
for that string, in particular a parse error whenever the oracle
fails. -/
theorem c3_numeric (F : Type) (pf : GoStr → Except CErr F) (m : NodeMap)
    (K : GoStr) :
    (lookupVal m K = none →
        ConfigContainer.Int m K = .panicked
      ∧ ConfigContainer.Int64 m K = .panicked
      ∧ ConfigContainer.Float F pf m K = .panicked)
  ∧ (∀ s n, lookupVal m K = some (.str s) → atoi s = .ok n →
        ConfigContainer.Int m K = .ok n ∧ ConfigContainer.Int64 m K = .ok n)
  ∧ (∀ s, lookupVal m K = some (.str s) → parseDecChars s.data = none →
        ConfigContainer.Int m K = .err .parseErr
      ∧ ConfigContainer.Int64 m K = .err .parseErr)
  ∧ (∀ s e, lookupVal m K = some (.str s) → pf s = .error e →
        ConfigContainer.Float F pf m K = .err e) := by
  refine ⟨fun h => ?_, fun s n hs hn => ?_, fun s hs hnone => ?_,
    fun s e hs he => ?_⟩
  · exact ⟨by simp [ConfigContainer.Int, h], by simp [ConfigContainer.Int64, h],
      by simp [ConfigContainer.Float, h]⟩
  · have hn' : parseInt64 s = .ok n := hn
    exact ⟨by simp [ConfigContainer.Int, hs, hn],
      by simp [ConfigContainer.Int64, hs, hn']⟩
  · have h1 : atoi s = .error .parseErr := by
      show goParseInt10 s.data = .error .parseErr
      simp [goParseInt10, hnone]
    have h2 : parseInt64 s = .error .parseErr := h1
    exact ⟨by simp [ConfigContainer.Int, hs, h1],
      by simp [ConfigContainer.Int64, hs, h2]⟩
  · simp [ConfigContainer.Float, hs, he]

/-- Witness for C3 at a concrete node where key "x" is absent: all three
numeric getters panic (the oracle is instantiated with an
always-failing parse). -/
theorem c3_witness :
    lookupVal ([("k", Val.str "abc")] : NodeMap) "x" = none
  ∧ (ConfigContainer.Int [("k", Val.str "abc")] "x" = .panicked
    ∧ ConfigContainer.Int64 [("k", Val.str "abc")] "x" = .panicked
    ∧ ConfigContainer.Float Int (fun _ => .error .parseErr)
        [("k", Val.str "abc")] "x" = .panicked) :=
  ⟨rfl, (c3_numeric Int (fun _ => .error .parseErr)
      [("k", Val.str "abc")] "x").1 rfl⟩

/-- Counterexample to C4 as stated: the claim says the default-valued
wrappers absorb every failure of the underlying getter, including
absence of the key.  On the empty node the key "x" is absent, and
`DefaultInt [] "x" 7` does not return the default 7: the bare type
assertion inside `Int` panics and the panic propagates through the
wrapper. -/
theorem c4_counterexample :
    ConfigContainer.DefaultInt [] "x" 7 = .panicked
  ∧ ConfigContainer.DefaultInt [] "x" 7 ≠ .val 7 :=
  ⟨rfl, by decide⟩

/-- C4 amended: each default-valued wrapper returns the underlying
strict getter's value when the getter succeeds and the default on every
error the getter returns, and the default wrappers are still the only
operations that absorb errors — every other embedded operation (`Bool`,
`Int`, `Int64`, `Float`, `Strings`, `Sub`, `Set`, `ParseData`,
`SaveConfigFile`) propagates every underlying failure to its caller
rather than converting it into a success, while `String` and `Set`
never produce an error at all — but `DefaultInt`, `DefaultInt64` and
`DefaultFloat` do not absorb the runtime fault their getters raise on an
absent key: that fault propagates out of the wrapper instead of
producing the default.  (`DefaultBool` does absorb every failure
including absence of K, since `Bool` returns absence as an error.) -/
theorem c4_amended (F : Type) (pf : GoStr → Except CErr F) (m : NodeMap)
    (K : GoStr) (db : GoBool) (di : GoInt) (df : F) :
    (∀ b, ConfigContainer.Bool m K = .ok b →
      ConfigContainer.DefaultBool m K db = .val b)
  ∧ (∀ e, ConfigContainer.Bool m K = .err e →
      ConfigContainer.DefaultBool m K db = .val db)
  ∧ (lookupVal m K = none → ConfigContainer.DefaultBool m K db = .val db)
  ∧ (∀ n, ConfigContainer.Int m K = .ok n →
      ConfigContainer.DefaultInt m K di = .val n)
  ∧ (∀ e, ConfigContainer.Int m K = .err e →
      ConfigContainer.DefaultInt m K di = .val di)
  ∧ (∀ n, ConfigContainer.Int64 m K = .ok n →
      ConfigContainer.DefaultInt64 m K di = .val n)
  ∧ (∀ e, ConfigContainer.Int64 m K = .err e →
      ConfigContainer.DefaultInt64 m K di = .val di)
  ∧ (∀ f, ConfigContainer.Float F pf m K = .ok f →
      ConfigContainer.DefaultFloat F pf m K df = .val f)
  ∧ (∀ e, ConfigContainer.Float F pf m K = .err e →
      ConfigContainer.DefaultFloat F pf m K df = .val df)
  ∧ (lookupVal m K = none →
      ConfigContainer.DefaultInt m K di = .panicked
    ∧ ConfigContainer.DefaultInt64 m K di = .panicked
    ∧ ConfigContainer.DefaultFloat F pf m K df = .panicked)
  ∧ (∀ v e, lookupVal m K = some v → ParseBool v = .error e →
      ConfigContainer.Bool m K = .err e)
  ∧ (lookupVal m K = none →
      ConfigContainer.Bool m K = .err (.notFound K))
  ∧ (∀ s e, lookupVal m K = some (.str s) → atoi s = .error e →
      ConfigContainer.Int m K = .err e ∧ ConfigContainer.Int64 m K = .err e)
  ∧ (∀ s e, lookupVal m K = some (.str s) → pf s = .error e →
      ConfigContainer.Float F pf m K = .err e)
  ∧ (∀ e, ConfigContainer.String m K ≠ .err e)
  ∧ (∀ e, ConfigContainer.String m K = .err e →
      ConfigContainer.Strings m K = .err e)
  ∧ (∀ σ c K' e, ConfigContainer.sub σ c K' = .error e →
      ConfigContainer.Sub σ c K' = .error e)
  ∧ (∀ σ c K' v', (ConfigContainer.Set σ c K' v').2 = none)
  ∧ (∀ ex σ d, lookupVal d "config" = none →
      ParseData ex σ d = .error .missingConfigTag)
  ∧ (∀ ex σ d s, lookupVal d "config" = some (.str s) →
      ParseData ex σ d = .error .configTagNoSub)
  ∧ (∀ m' e, ConfigContainer.xmlMarshalIndent m' = .error e →
      ConfigContainer.SaveConfigFile true m' = .error e)
  ∧ (∀ m', ConfigContainer.SaveConfigFile false m' = .error .ioErr) := by
  refine ⟨fun b h => by simp [ConfigContainer.DefaultBool, h],
    fun e h => by simp [ConfigContainer.DefaultBool, h],
    fun h => ?_,
    fun n h => by simp [ConfigContainer.DefaultInt, h],
    fun e h => by simp [ConfigContainer.DefaultInt, h],
    fun n h => by simp [ConfigContainer.DefaultInt64, h],
    fun e h => by simp [ConfigContainer.DefaultInt64, h],
    fun f h => by simp [ConfigContainer.DefaultFloat, h],
    fun e h => by simp [ConfigContainer.DefaultFloat, h],
    fun h => ?_,
    fun v e hv hp => by simp [ConfigContainer.Bool, hv, hp],
    fun h => by simp [ConfigContainer.Bool, h],
    fun s e hs he => ?_,
    fun s e hs he => by simp [ConfigContainer.Float, hs, he],
    fun e h => ?_,
    fun e h => by simp [ConfigContainer.Strings, h],
    fun σ c K' e h => by simp [ConfigContainer.Sub, h],
    fun σ c K' v' => rfl,
    fun ex σ d h => by simp [ParseData, h],
    fun ex σ d s h => by simp [ParseData, h],
    fun m' e h => by simp [ConfigContainer.SaveConfigFile, h],
    fun m' => rfl⟩
  · have hb : ConfigContainer.Bool m K = .err (.notFound K) := by
      simp [ConfigContainer.Bool, h]
    simp [ConfigContainer.DefaultBool, hb]
  · have hi : ConfigContainer.Int m K = .panicked := by
      simp [ConfigContainer.Int, h]
    have hi64 : ConfigContainer.Int64 m K = .panicked := by
      simp [ConfigContainer.Int64, h]
    have hf : ConfigContainer.Float F pf m K = .panicked := by
      simp [ConfigContainer.Float, h]
    exact ⟨by simp [ConfigContainer.DefaultInt, hi],
      by simp [ConfigContainer.DefaultInt64, hi64],
      by simp [ConfigContainer.DefaultFloat, hf]⟩
  · have he' : parseInt64 s = .error e := he
    exact ⟨by simp [ConfigContainer.Int, hs, he],
      by simp [ConfigContainer.Int64, hs, he']⟩
  · cases hl : lookupVal m K with
    | none => simp [ConfigContainer.String, hl] at h
    | some v =>
      cases v with
      | str s => simp [ConfigContainer.String, hl] at h
      | ref a => simp [ConfigContainer.String, hl] at h

/-- Witness for the amended C4 at a concrete node: key "k" stores "9",
`Int` succeeds with 9, and `DefaultInt` returns 9, not the default 7. -/
theorem c4_witness :
    ConfigContainer.Int [("k", Val.str "9")] "k" = .ok 9
  ∧ ConfigContainer.DefaultInt [("k", Val.str "9")] "k" 7 = .val 9 :=
  ⟨rfl, (c4_amended Int (fun _ => .error .parseErr) [("k", Val.str "9")]
      "k" true 7 0).2.2.2.1 9 rfl⟩

/-- C5: `String K` never returns an error: it returns the stored scalar
when K is present with a string value, and `("", nil)` when K is absent
or its value is not a string; `DefaultString K d` returns `d` whenever
`String K` yields the empty string (an error cannot occur), and the
stored value otherwise. -/
theorem c5_string (m : NodeMap) (K d : GoStr) :
    (∀ s, lookupVal m K = some (.str s) →
      ConfigContainer.String m K = .ok s)
  ∧ (lookupVal m K = none → ConfigContainer.String m K = .ok "")
  ∧ (∀ a, lookupVal m K = some (.ref a) →
      ConfigContainer.String m K = .ok "")
  ∧ (∃ s, ConfigContainer.String m K = .ok s)
  ∧ (∀ s, ConfigContainer.String m K = .ok s →
      (s = "" → ConfigContainer.DefaultString m K d = d)
    ∧ (s ≠ "" → ConfigContainer.DefaultString m K d = s)) := by
  refine ⟨fun s h => by simp [ConfigContainer.String, h],
    fun h => by simp [ConfigContainer.String, h],
    fun a h => by simp [ConfigContainer.String, h], ?_, ?_⟩
  · cases hl : lookupVal m K with
    | none => exact ⟨"", by simp [ConfigContainer.String, hl]⟩
    | some v =>
      cases v with
      | str s => exact ⟨s, by simp [ConfigContainer.String, hl]⟩
      | ref a => exact ⟨"", by simp [ConfigContainer.String, hl]⟩
  · intro s hs
    exact ⟨fun he => by simp [ConfigContainer.DefaultString, hs, he],
      fun hne => by simp [ConfigContainer.DefaultString, hs, hne]⟩

/-- Witness for C5 at a concrete node: key "k" stores "hello" and
`String` returns it with a nil error. -/
theorem c5_witness :
    lookupVal [("k", Val.str "hello")] "k" = some (.str "hello")
  ∧ ConfigContainer.String [("k", Val.str "hello")] "k" = .ok "hello" :=
  ⟨rfl, (c5_string [("k", Val.str "hello")] "k" "d").1 "hello" rfl⟩

/-- C6: for every key K with a non-empty stored string value, `Strings`
splits the value of `String K` on the ";" separator — in particular the
stored value "a;b;c" yields the ordered sequence ["a", "b", "c"] — and
whenever `String K` yields the empty string (including an absent K) it
returns the nil sequence with a nil error. -/
theorem c6_strings (m : NodeMap) (K : GoStr) :
    (∀ v, lookupVal m K = some (.str v) → v ≠ "" →
      ConfigContainer.Strings m K = .ok (goStringsSplit v ';'))
  ∧ (lookupVal m K = some (.str "a;b;c") →
      ConfigContainer.Strings m K = .ok ["a", "b", "c"])
  ∧ (ConfigContainer.String m K = .ok "" →
      ConfigContainer.Strings m K = .ok []) := by
  refine ⟨fun v hv hne => ?_, fun h => ?_, fun h => ?_⟩
  · have hs : ConfigContainer.String m K = .ok v := by
      simp [ConfigContainer.String, hv]
    simp [ConfigContainer.Strings, hs, hne]
  · have hs : ConfigContainer.String m K = .ok "a;b;c" := by
      simp [ConfigContainer.String, h]
    have h2 : ConfigContainer.Strings m K = .ok (goStringsSplit "a;b;c" ';') := by
      simp [ConfigContainer.Strings, hs,
        (show ("a;b;c" : GoStr) ≠ "" from by decide)]
    rw [h2]
    exact congrArg Res.ok (by decide)
  · simp [ConfigContainer.Strings, h]

/-- Witness for C6 at a concrete node: key "k" stores "a;b;c" and
`Strings` returns ["a", "b", "c"]. -/
theorem c6_witness :
    lookupVal [("k", Val.str "a;b;c")] "k" = some (.str "a;b;c")
  ∧ ConfigContainer.Strings [("k", Val.str "a;b;c")] "k" =
      .ok ["a", "b", "c"] :=
  ⟨rfl, (c6_strings [("k", Val.str "a;b;c")] "k").2.1 rfl⟩

/-- Counterexample to C7 as stated: the claim quantifies over every
integer n, but for n = 2^63 (decimal spelling "9223372036854775808",
produced by `intDecimal`) the stored value exceeds the 64-bit range of
`strconv.Atoi`, so after `Set "x" (intDecimal n)` the getter `Int "x"`
returns a range error, not `(n, nil)`. -/
theorem c7_counterexample :
    intDecimal 9223372036854775808 = "9223372036854775808"
  ∧ (ConfigContainer.Set [[]] 0 "x" "9223372036854775808").2 = none
  ∧ ConfigContainer.Int
      (getNode (ConfigContainer.Set [[]] 0 "x" "9223372036854775808").1 0)
      "x" = .err .rangeErr
  ∧ ConfigContainer.Int
      (getNode (ConfigContainer.Set [[]] 0 "x" "9223372036854775808").1 0)
      "x" ≠ .ok 9223372036854775808 :=
  ⟨rfl, rfl, rfl, by decide⟩

/-- C7 amended: for every allocated handle and every integer n within
the signed 64-bit range, after `Set K V` succeeds (returning a nil
error) with V the base-10 decimal spelling of n, `Int K` returns
`(n, nil)` — in particular `Set "x" "5"` then `Int "x"` returns
`(5, nil)`. -/
theorem c7_amended (σ : Store) (c : Addr) (K : GoStr) (n : Int)
    (hc : c < σ.length) (h1 : int64Min ≤ n) (h2 : n ≤ int64Max) :
    (ConfigContainer.Set σ c K (intDecimal n)).2 = none
  ∧ ConfigContainer.Int
      (getNode (ConfigContainer.Set σ c K (intDecimal n)).1 c) K = .ok n := by
  refine ⟨rfl, ?_⟩
  show ConfigContainer.Int
    (getNode (setNode σ c (insertVal (getNode σ c) K (.str (intDecimal n)))) c)
    K = .ok n
  rw [getNode_setNode_self σ c _ hc]
  simp [ConfigContainer.Int, lookupVal_insertVal_self,
    atoi_intDecimal n h1 h2]

/-- Witness for the amended C7 at a concrete store: on handle 0 of a
one-object store, `Set "x" "5"` then `Int "x"` gives `(5, nil)`. -/
theorem c7_witness :
    (0 < ([[]] : Store).length
      ∧ int64Min ≤ (5 : Int) ∧ (5 : Int) ≤ int64Max)
  ∧ ((ConfigContainer.Set [[]] 0 "x" (intDecimal 5)).2 = none
    ∧ ConfigContainer.Int
        (getNode (ConfigContainer.Set [[]] 0 "x" (intDecimal 5)).1 0) "x" =
        .ok 5) :=
  ⟨⟨by decide, by decide, by decide⟩,
   c7_amended [[]] 0 "x" 5 (by decide) (by decide) (by decide)⟩

/-- C8 (recording the defect): for every configuration node,
`SaveConfigFile` never succeeds — `xml.MarshalIndent` on the `data` map
always fails with `UnsupportedTypeError` because `encoding/xml` cannot
marshal a Go map, so the claimed save-then-reload round trip is
impossible; with a writable file the returned error is exactly the
marshalling error. -/
theorem c8_saveConfigFile (openOk : GoBool) (m : NodeMap) :
    ConfigContainer.SaveConfigFile true m = .error .unsupportedType
  ∧ ConfigContainer.SaveConfigFile openOk m ≠ .ok () := by
  refine ⟨rfl, ?_⟩
  cases openOk <;>
    simp [ConfigContainer.SaveConfigFile, ConfigContainer.xmlMarshalIndent]

/-- C9: `Sub ""` returns a handle over the current node itself; for a
non-empty key K, `Sub K` fails when K is absent or when its value is a
scalar rather than a mapping; and when K holds a nested mapping, the
handle `Sub K` returns is the address of that very map object — no copy
is made — so a `Set` performed through the narrowed handle mutates the
shared object in place: the write is visible at that object's address
(hence through every handle referencing it), every other map object is
untouched, and re-narrowing from the parent reaches the updated
object. -/
theorem c9_sub_sharing (σ : Store) (p b : Addr) (K k v : GoStr) :
    ConfigContainer.Sub σ p "" = .ok p
  ∧ (K ≠ "" → lookupVal (getNode σ p) K = none →
      ConfigContainer.Sub σ p K = .error (.keyNotFound K))
  ∧ (∀ s, K ≠ "" → lookupVal (getNode σ p) K = some (.str s) →
      ConfigContainer.Sub σ p K = .error (.notStructure K))
  ∧ (K ≠ "" → b < σ.length → lookupVal (getNode σ p) K = some (.ref b) →
      ConfigContainer.Sub σ p K = .ok b
      ∧ (ConfigContainer.Set σ b k v).2 = none
      ∧ getNode (ConfigContainer.Set σ b k v).1 b =
          insertVal (getNode σ b) k (.str v)
      ∧ lookupVal (getNode (ConfigContainer.Set σ b k v).1 b) k =
          some (.str v)
      ∧ (∀ q, q ≠ b → getNode (ConfigContainer.Set σ b k v).1 q = getNode σ q)
      ∧ (p ≠ b → ConfigContainer.Sub (ConfigContainer.Set σ b k v).1 p K =
          .ok b)) := by
  refine ⟨rfl, fun hK h => ?_, fun s hK h => ?_, fun hK hb h => ?_⟩
  · simp [ConfigContainer.Sub, ConfigContainer.sub, hK, h]
  · simp [ConfigContainer.Sub, ConfigContainer.sub, hK, h]
  · have hset : (ConfigContainer.Set σ b k v).1 =
        setNode σ b (insertVal (getNode σ b) k (.str v)) := rfl
    have hnode : getNode (ConfigContainer.Set σ b k v).1 b =
        insertVal (getNode σ b) k (.str v) := by
      rw [hset, getNode_setNode_self σ b _ hb]
    refine ⟨by simp [ConfigContainer.Sub, ConfigContainer.sub, hK, h], rfl,
      hnode, ?_, fun q hq => ?_, fun hp => ?_⟩
    · rw [hnode, lookupVal_insertVal_self]
    · rw [hset, getNode_setNode_ne σ b q _ hq]
    · have hpn : getNode (ConfigContainer.Set σ b k v).1 p = getNode σ p := by
        rw [hset, getNode_setNode_ne σ b p _ hp]
      simp [ConfigContainer.Sub, ConfigContainer.sub, hK, hpn, h]

/-- Witness for C9 at a concrete store: handle 0 maps "a" to map
object 1; `Sub "a"` returns handle 1, `Set "x" "5"` through it mutates
object 1 in place, and the parent still reaches the updated object. -/
theorem c9_witness :
    (("a" : GoStr) ≠ "" ∧ 1 < ([[("a", Val.ref 1)], []] : Store).length
      ∧ lookupVal (getNode [[("a", Val.ref 1)], []] 0) "a" =
          some (.ref 1))
  ∧ (ConfigContainer.Sub [[("a", Val.ref 1)], []] 0 "a" = .ok 1
      ∧ (ConfigContainer.Set [[("a", Val.ref 1)], []] 1 "x" "5").2 = none
      ∧ getNode (ConfigContainer.Set [[("a", Val.ref 1)], []] 1 "x" "5").1 1 =
          insertVal (getNode [[("a", Val.ref 1)], []] 1) "x" (.str "5")
      ∧ lookupVal
          (getNode (ConfigContainer.Set [[("a", Val.ref 1)], []] 1 "x" "5").1 1)
          "x" = some (.str "5")
      ∧ (∀ q, q ≠ 1 →
          getNode (ConfigContainer.Set [[("a", Val.ref 1)], []] 1 "x" "5").1 q =
            getNode [[("a", Val.ref 1)], []] q)
      ∧ ((0 : Addr) ≠ 1 →
          ConfigContainer.Sub
            (ConfigContainer.Set [[("a", Val.ref 1)], []] 1 "x" "5").1 0 "a" =
            .ok 1)) :=
  ⟨⟨by decide, by decide, rfl⟩,
   (c9_sub_sharing [[("a", Val.ref 1)], []] 0 1 "a" "x" "5").2.2.2
     (by decide) (by decide) rfl⟩

/-- C10: for every allocated handle, key K and string V, `Set K V`
returns a nil error and modifies only the binding of K in the handle's
node: afterwards the node maps K to V, and every other key of that node
keeps exactly the value it had before the call. -/
theorem c10_set_frame (σ : Store) (c : Addr) (k v : GoStr)
    (hc : c < σ.length) :
    (ConfigContainer.Set σ c k v).2 = none
  ∧ lookupVal (getNode (ConfigContainer.Set σ c k v).1 c) k =
      some (.str v)
  ∧ ∀ k', k' ≠ k →
      lookupVal (getNode (ConfigContainer.Set σ c k v).1 c) k' =
        lookupVal (getNode σ c) k' := by
  have hnode : getNode (ConfigContainer.Set σ c k v).1 c =
      insertVal (getNode σ c) k (.str v) := by
    show getNode (setNode σ c (insertVal (getNode σ c) k (.str v))) c = _
    rw [getNode_setNode_self σ c _ hc]
  refine ⟨rfl, ?_, fun k' hk' => ?_⟩
  · rw [hnode, lookupVal_insertVal_self]
  · rw [hnode, lookupVal_insertVal_ne _ _ _ _ hk']

/-- Witness for C10 at a concrete store: setting "x" to "5" on a node
that also holds "y" returns a nil error, binds "x", and leaves "y"
unchanged. -/
theorem c10_witness :
    0 < ([[("y", Val.str "1")]] : Store).length
  ∧ ((ConfigContainer.Set [[("y", Val.str "1")]] 0 "x" "5").2 = none
    ∧ lookupVal
        (getNode (ConfigContainer.Set [[("y", Val.str "1")]] 0 "x" "5").1 0)
        "x" = some (.str "5")
    ∧ ∀ k', k' ≠ "x" →
        lookupVal
          (getNode (ConfigContainer.Set [[("y", Val.str "1")]] 0 "x" "5").1 0)
          k' = lookupVal (getNode [[("y", Val.str "1")]] 0) k') :=
  ⟨by decide, c10_set_frame [[("y", Val.str "1")]] 0 "x" "5" (by decide)⟩
